import Mathlib

/-
Verification development for the faceland lead-delivery subsystem.

Shallow embedding of the delivery/distribution core:
  * the webhook retry scheduler (enqueueWebhook / processWebhookDelivery),
  * the HMAC-SHA256 signing primitive (signPayload / verifySignature),
  * the quota/eligibility engine (getEligibleClients / checkClientQuotas),
  * the CRM distribution orchestrator (buildRequestBody / distributeToClient /
    distributeSubmission).

Modelling conventions:
  * Database rows are Lean structures; the Prisma-backed store is an explicit
    `Db` value threaded through the functions that read or write it.
  * JavaScript timestamps are `Int` milliseconds; `Date` calendar arithmetic
    (`setDate(getDate() - periodDays)`) is modelled as subtracting
    `periodDays * 86400000` milliseconds on a linear clock.
  * JavaScript plain objects (headers, request bodies) are association lists
    `List (String × α)`; property assignment `o[k] = v` keeps the position of
    an existing key and appends fresh keys, matching JS key-insertion order.
  * Strings handed to Node `Buffer`/`crypto` are byte lists (`List Nat`,
    entries < 256).
  * `fetch` is a caller-supplied oracle; a thrown network error and a received
    response are the two constructors of `FetchOutcome`.
-/

namespace Faceland

/-! ## JavaScript object primitives -/

/-- Value of a JavaScript object property as it appears in the dynamic
payloads (`value: unknown` of answers, metadata strings, `null`,
`undefined` from optional chaining). -/
inductive JVal where
  | str (s : String)
  | num (n : Int)
  | bool (b : Bool)
  | null
  | undefinedVal
deriving DecidableEq, Repr

/-- JavaScript property assignment `o[k] = v` on a plain object: an existing
key keeps its position, a fresh key is appended (JS key-insertion order). -/
def objSet (o : List (String × α)) (k : String) (v : α) : List (String × α) :=
  if o.any (fun p => p.1 == k) then
    o.map (fun p => if p.1 == k then (k, v) else p)
  else
    o ++ [(k, v)]

/-! ## Webhook retry scheduler (src lib/webhook: enqueueWebhook,
processWebhookDelivery) -/

/-- Row of the `WebhookDelivery` table (mutable fields of interest). -/
structure WebhookDelivery where
  formId : String
  submissionId : String
  url : String
  payloadJson : String
  responseStatus : Option Int
  responseBodyText : Option String
  success : Bool
  attempts : Nat
  lastError : Option String
  nextAttemptAt : Option Int
deriving DecidableEq, Repr

/-- `const MAX_ATTEMPTS = 3`. -/
def MAX_ATTEMPTS : Nat := 3

/-- `const RETRY_DELAYS = [1000, 5000, 25000]` (milliseconds). -/
def RETRY_DELAYS : List Int := [1000, 5000, 25000]

/-- JavaScript `x || y` for a possibly-undefined number `x`: `undefined`
and `0` are falsy and yield the fallback. -/
def jsOrInt (x : Option Int) (fallback : Int) : Int :=
  match x with
  | some v => if v == 0 then fallback else v
  | none => fallback

/-- `RETRY_DELAYS[newAttempts - 1] || RETRY_DELAYS[RETRY_DELAYS.length - 1]`. -/
def retryDelay (newAttempts : Nat) : Int :=
  jsOrInt RETRY_DELAYS[newAttempts - 1]? (RETRY_DELAYS.getD (RETRY_DELAYS.length - 1) 0)

/-- Outcome of one `fetch` call: a received HTTP response, or a thrown
transport error. -/
inductive FetchOutcome where
  | response (status : Int) (body : String)
  | netError (msg : String)
deriving DecidableEq, Repr

/-- `response.ok`: status in the inclusive range 200–299. -/
def responseOk (status : Int) : Bool :=
  decide (200 ≤ status) && decide (status < 300)

/-- Error message thrown for a non-2xx response:
`HTTP ${status}: ${body.substring(0, 200)}`. -/
def httpErrorMsg (status : Int) (body : String) : String :=
  "HTTP " ++ toString status ++ ": " ++ body.take 200

/-- Record created by `enqueueWebhook`: `attempts: 0`,
`nextAttemptAt: new Date()` (immediate). -/
def enqueueWebhook (now : Int) (formId submissionId url payloadJson : String) :
    WebhookDelivery :=
  { formId := formId
    submissionId := submissionId
    url := url
    payloadJson := payloadJson
    responseStatus := none
    responseBodyText := none
    success := false
    attempts := 0
    lastError := none
    nextAttemptAt := some now }

/-- Catch-branch of `processWebhookDelivery`: increment attempts, compute the
next-attempt time from the backoff table while attempts remain, persist the
error, clear the stored response fields. -/
def webhookFailureUpdate (now : Int) (errorMessage : String) (d : WebhookDelivery) :
    WebhookDelivery :=
  let newAttempts := d.attempts + 1
  let nextAt : Option Int :=
    if newAttempts < MAX_ATTEMPTS then some (now + retryDelay newAttempts) else none
  { d with
    attempts := newAttempts
    lastError := some errorMessage
    nextAttemptAt := nextAt
    responseStatus := none
    responseBodyText := none }

/-- One invocation of `processWebhookDelivery` on an existing record, with the
`fetch` outcome supplied by the oracle.  Terminal records (already successful,
or attempts exhausted) are left untouched; a 2xx response finalises the record;
anything else goes through the failure update. -/
def processWebhookDelivery (now : Int) (outcome : FetchOutcome) (d : WebhookDelivery) :
    WebhookDelivery :=
  if d.success || decide (MAX_ATTEMPTS ≤ d.attempts) then d
  else
    match outcome with
    | .response status body =>
      if responseOk status then
        { d with
          success := true
          responseStatus := some status
          responseBodyText := some (body.take 1000)
          attempts := d.attempts + 1
          lastError := none
          nextAttemptAt := none }
      else
        webhookFailureUpdate now (httpErrorMsg status body) d
    | .netError msg => webhookFailureUpdate now msg d

/-- Any number of `processWebhookDelivery` invocations, each with its wall
clock time and fetch outcome. -/
def runWebhookSteps (d : WebhookDelivery) (steps : List (Int × FetchOutcome)) :
    WebhookDelivery :=
  steps.foldl (fun d step => processWebhookDelivery step.1 step.2 d) d

/-- The record invariant of claim C3. -/
def WebhookInv (d : WebhookDelivery) : Prop :=
  d.attempts ≤ 3 ∧ (d.success = true → d.nextAttemptAt = none)

/-! ## Signing primitive (src lib/webhook: signPayload, verifySignature)

`crypto.createHmac('sha256', secret)` / `crypto.timingSafeEqual` are Node
builtins; they are embedded as an executable HMAC-SHA256 (FIPS 180-4 /
RFC 2104) over byte lists.  Strings crossing into `Buffer`/`crypto` are byte
lists (`List Nat`, entries < 256). -/

/-- Truncation to a 32-bit word. -/
def w32 (n : Nat) : Nat := n % 4294967296

/-- 32-bit right-rotation (operand assumed < 2^32). -/
def rotr (n x : Nat) : Nat := w32 (x / 2 ^ n + x % 2 ^ n * 2 ^ (32 - n))

/-- Logical right shift. -/
def shr (n x : Nat) : Nat := x / 2 ^ n

def bigSigma0 (x : Nat) : Nat := Nat.xor (rotr 2 x) (Nat.xor (rotr 13 x) (rotr 22 x))

def bigSigma1 (x : Nat) : Nat := Nat.xor (rotr 6 x) (Nat.xor (rotr 11 x) (rotr 25 x))

def smallSigma0 (x : Nat) : Nat := Nat.xor (rotr 7 x) (Nat.xor (rotr 18 x) (shr 3 x))

def smallSigma1 (x : Nat) : Nat := Nat.xor (rotr 17 x) (Nat.xor (rotr 19 x) (shr 10 x))

def chFn (x y z : Nat) : Nat := Nat.xor (Nat.land x y) (Nat.land (Nat.xor x 4294967295) z)

def majFn (x y z : Nat) : Nat :=
  Nat.xor (Nat.land x y) (Nat.xor (Nat.land x z) (Nat.land y z))

/-- The 64 SHA-256 round constants (FIPS 180-4, in decimal). -/
def sha256K : List Nat :=
  [1116352408, 1899447441, 3049323471, 3921009573, 961987163,
   1508970993, 2453635748, 2870763221, 3624381080, 310598401,
   607225278, 1426881987, 1925078388, 2162078206, 2614888103,
   3248222580, 3835390401, 4022224774, 264347078, 604807628,
   770255983, 1249150122, 1555081692, 1996064986, 2554220882,
   2821834349, 2952996808, 3210313671, 3336571891, 3584528711,
   113926993, 338241895, 666307205, 773529912, 1294757372,
   1396182291, 1695183700, 1986661051, 2177026350, 2456956037,
   2730485921, 2820302411, 3259730800, 3345764771, 3516065817,
   3600352804, 4094571909, 275423344, 430227734, 506948616,
   659060556, 883997877, 958139571, 1322822218, 1537002063,
   1747873779, 1955562222, 2024104815, 2227730452, 2361852424,
   2428436474, 2756734187, 3204031479, 3329325298]

/-- SHA-256 working state / chaining value: eight 32-bit words. -/
structure Hash8 where
  a : Nat
  b : Nat
  c : Nat
  d : Nat
  e : Nat
  f : Nat
  g : Nat
  h : Nat
deriving DecidableEq, Repr

/-- SHA-256 initial hash value (FIPS 180-4, in decimal). -/
def sha256H0 : Hash8 :=
  ⟨1779033703, 3144134277, 1013904242, 2773480762,
   1359893119, 2600822924, 528734635, 1541459225⟩

/-- One SHA-256 round. -/
def sha256Round (st : Hash8) (ki wi : Nat) : Hash8 :=
  let t1 := w32 (st.h + bigSigma1 st.e + chFn st.e st.f st.g + ki + wi)
  let t2 := w32 (bigSigma0 st.a + majFn st.a st.b st.c)
  ⟨w32 (t1 + t2), st.a, st.b, st.c, w32 (st.d + t1), st.e, st.f, st.g⟩

/-- Message-schedule extension of a 16-word block to 64 words. -/
def sha256Schedule (block : List Nat) : List Nat :=
  (List.range 48).foldl
    (fun acc _ =>
      acc ++ [w32 (smallSigma1 (acc.getD (acc.length - 2) 0) +
                   acc.getD (acc.length - 7) 0 +
                   smallSigma0 (acc.getD (acc.length - 15) 0) +
                   acc.getD (acc.length - 16) 0)])
    block

/-- SHA-256 compression of one 16-word block into the chaining value. -/
def sha256CompressBlock (H : Hash8) (block : List Nat) : Hash8 :=
  let ws := sha256Schedule block
  let st := (sha256K.zip ws).foldl (fun s kw => sha256Round s kw.1 kw.2) H
  ⟨w32 (H.a + st.a), w32 (H.b + st.b), w32 (H.c + st.c), w32 (H.d + st.d),
   w32 (H.e + st.e), w32 (H.f + st.f), w32 (H.g + st.g), w32 (H.h + st.h)⟩

/-- Big-endian 64-bit encoding of the message bit length. -/
def toBE64 (n : Nat) : List Nat :=
  [n / 2 ^ 56 % 256, n / 2 ^ 48 % 256, n / 2 ^ 40 % 256, n / 2 ^ 32 % 256,
   n / 2 ^ 24 % 256, n / 2 ^ 16 % 256, n / 2 ^ 8 % 256, n % 256]

/-- Big-endian 32-bit word to four bytes. -/
def toBE32 (w : Nat) : List Nat :=
  [w / 2 ^ 24 % 256, w / 2 ^ 16 % 256, w / 2 ^ 8 % 256, w % 256]

/-- SHA-256 padding: append 0x80, zero bytes to 56 mod 64, then the 64-bit
big-endian bit length. -/
def sha256Pad (msg : List Nat) : List Nat :=
  let l := msg.length
  let k := (120 - (l + 1) % 64) % 64
  msg ++ [128] ++ List.replicate k 0 ++ toBE64 (8 * l)

/-- Four big-endian bytes at a time into 32-bit words. -/
def bytesToWords : List Nat → List Nat
  | b0 :: b1 :: b2 :: b3 :: rest =>
    (b0 * 2 ^ 24 + b1 * 2 ^ 16 + b2 * 2 ^ 8 + b3) :: bytesToWords rest
  | _ => []

/-- Split a word list into 16-word blocks (a padded message is always a
whole number of 64-byte blocks, so the catch-all is never hit on real
inputs). -/
def chunk16 : List Nat → List (List Nat)
  | w0 :: w1 :: w2 :: w3 :: w4 :: w5 :: w6 :: w7 ::
    w8 :: w9 :: w10 :: w11 :: w12 :: w13 :: w14 :: w15 :: rest =>
    [w0, w1, w2, w3, w4, w5, w6, w7, w8, w9, w10, w11, w12, w13, w14, w15] ::
      chunk16 rest
  | _ => []

/-- Chaining value to 32 output bytes. -/
def hashToBytes (H : Hash8) : List Nat :=
  toBE32 H.a ++ toBE32 H.b ++ toBE32 H.c ++ toBE32 H.d ++
  toBE32 H.e ++ toBE32 H.f ++ toBE32 H.g ++ toBE32 H.h

/-- SHA-256 of a byte list. -/
def sha256 (msg : List Nat) : List Nat :=
  hashToBytes ((chunk16 (bytesToWords (sha256Pad msg))).foldl sha256CompressBlock sha256H0)

/-- HMAC-SHA256 (RFC 2104) with 64-byte block size. -/
def hmacSha256 (key msg : List Nat) : List Nat :=
  let k0 := if 64 < key.length then sha256 key else key
  let k := k0 ++ List.replicate (64 - k0.length) 0
  let ipadKey := k.map (fun b => Nat.xor b 54)
  let opadKey := k.map (fun b => Nat.xor b 92)
  sha256 (opadKey ++ sha256 (ipadKey ++ msg))

/-- Lowercase hex digit for a nibble. -/
def hexChar (n : Nat) : Nat := if n < 10 then 48 + n else 87 + n

/-- Lowercase hex encoding of a byte list, as ASCII bytes. -/
def hexEncode (bs : List Nat) : List Nat :=
  bs.foldr (fun b acc => hexChar (b / 16) :: hexChar (b % 16) :: acc) []

/-- ASCII bytes of the literal `sha256=`. -/
def sigHeaderBytes : List Nat := [115, 104, 97, 50, 53, 54, 61]

/-- `signPayload(payload, secret)`: the string `sha256=` followed by the
lowercase hex HMAC-SHA256 digest of the payload under the secret. -/
def signPayload (payload secret : List Nat) : List Nat :=
  sigHeaderBytes ++ hexEncode (hmacSha256 secret payload)

/-- `crypto.timingSafeEqual(a, b)`: throws when the buffers have different
byte lengths, otherwise reports byte equality. -/
def timingSafeEqual (a b : List Nat) : Except String Bool :=
  if a.length = b.length then .ok (a == b)
  else .error "Input buffers must have the same byte length"

/-- `verifySignature(payload, signature, secret)`: compare the candidate
signature against the recomputed expected signature with
`crypto.timingSafeEqual`. -/
def verifySignature (payload signature secret : List Nat) : Except String Bool :=
  timingSafeEqual signature (signPayload payload secret)

/-! ## Quota & eligibility engine (src lib/distribution: getEligibleClients,
checkClientQuotas, selectClient) -/

/-- Row of the `CrmQuota` table. -/
structure CrmQuota where
  id : String
  leadLimit : Int
  periodDays : Nat
deriving DecidableEq, Repr

/-- Row of the `CrmClient` table, loaded with its quota rules
(`include: { quotas: true }`). -/
structure CrmClient where
  id : String
  name : String
  apiUrl : String
  apiKey : Option String
  httpMethod : String
  headers : Option (List (String × String))
  fieldMapping : List (String × String)
  enabled : Bool
  priority : Int
  quotas : List CrmQuota
deriving DecidableEq, Repr

/-- Row of the `FormDistributionClient` join table (`priority` nullable). -/
structure FormDistributionClient where
  id : String
  formId : String
  clientId : String
  enabled : Bool
  priority : Option Int
deriving DecidableEq, Repr

/-- Row of the `CrmDelivery` table. -/
structure CrmDelivery where
  id : Nat
  clientId : String
  submissionId : String
  formId : String
  requestBody : List (String × JVal)
  responseStatus : Option Int
  responseBody : Option String
  success : Bool
  attempts : Nat
  lastError : Option String
  createdAt : Int
deriving DecidableEq, Repr

/-- The Prisma-backed store as read/written by the distribution module. -/
structure Db where
  clients : List CrmClient
  formClients : List FormDistributionClient
  deliveries : List CrmDelivery
deriving DecidableEq, Repr

/-- Per-quota snapshot produced by `checkClientQuotas`. -/
structure QuotaStatus where
  quotaId : String
  leadLimit : Int
  periodDays : Nat
  currentCount : Nat
  remaining : Int
  isAvailable : Bool
deriving DecidableEq, Repr

/-- Entry of the eligible-client list. -/
structure EligibleClient where
  client : CrmClient
  formClient : Option FormDistributionClient
  effectivePriority : Int
  quotaStatus : List QuotaStatus
deriving DecidableEq, Repr

/-- One day of the linear clock, in milliseconds (models
`periodStart.setDate(periodStart.getDate() - periodDays)`). -/
def msPerDay : Int := 86400000

/-- `prisma.crmDelivery.count({ where: { clientId, success: true,
createdAt: { gte: periodStart } } })`. -/
def countSuccessfulDeliveries (db : Db) (clientId : String) (periodStart : Int) : Nat :=
  (db.deliveries.filter
    (fun d => d.clientId == clientId && d.success && decide (periodStart ≤ d.createdAt))).length

/-- `checkClientQuotas`: one status row per quota rule; `remaining =
leadLimit - count`, available iff `remaining > 0`. -/
def checkClientQuotas (db : Db) (now : Int) (clientId : String) (quotas : List CrmQuota) :
    List QuotaStatus :=
  quotas.map (fun q =>
    let periodStart := now - q.periodDays * msPerDay
    let currentCount := countSuccessfulDeliveries db clientId periodStart
    let remaining := q.leadLimit - (currentCount : Int)
    { quotaId := q.id
      leadLimit := q.leadLimit
      periodDays := q.periodDays
      currentCount := currentCount
      remaining := remaining
      isAvailable := decide (0 < remaining) })

/-- `prisma.formDistributionClient.findMany({ where: { formId,
enabled: true } })`. -/
def enabledFormClients (db : Db) (formId : String) : List FormDistributionClient :=
  db.formClients.filter (fun fc => fc.formId == formId && fc.enabled)

/-- `new Map(formClients.map(fc => [fc.clientId, fc])).get(clientId)`:
later entries overwrite earlier ones for a duplicate key (the schema makes
`(formId, clientId)` unique, so duplicates cannot occur in practice). -/
def jsMapGet (fcs : List FormDistributionClient) (clientId : String) :
    Option FormDistributionClient :=
  fcs.foldl (fun acc fc => if fc.clientId == clientId then some fc else acc) none

/-- `formClient?.priority ?? client.priority`: the per-form override when the
row exists and its priority is non-null, else the client's base priority. -/
def effPriority (formClient : Option FormDistributionClient) (client : CrmClient) : Int :=
  match formClient with
  | some fc => fc.priority.getD client.priority
  | none => client.priority

/-- Loop body of `getEligibleClients`: the allowlist guard
(`formClients.length > 0 && !formClient`) followed by the quota check
(`quotaStatus.every(qs => qs.isAvailable)`). -/
def eligibleEntry (db : Db) (now : Int) (formId : String) (client : CrmClient) :
    Option EligibleClient :=
  let formClients := enabledFormClients db formId
  let formClient := jsMapGet formClients client.id
  if decide (0 < formClients.length) && formClient.isNone then none
  else
    let quotaStatus := checkClientQuotas db now client.id client.quotas
    if quotaStatus.all (fun qs => qs.isAvailable) then
      some { client := client
             formClient := formClient
             effectivePriority := effPriority formClient client
             quotaStatus := quotaStatus }
    else none

/-- The allowlist filter applied by `getEligibleClients` to one client:
the negation of the `continue` guard `formClients.length > 0 && !formClient`. -/
def passesAllowlist (db : Db) (formId : String) (client : CrmClient) : Bool :=
  let formClients := enabledFormClients db formId
  !(decide (0 < formClients.length) && (jsMapGet formClients client.id).isNone)

/-- The eligible list in load order, before sorting (the `for` loop over the
enabled clients). -/
def eligibleCore (db : Db) (now : Int) (formId : String) : List EligibleClient :=
  (db.clients.filter (fun c => c.enabled)).filterMap (eligibleEntry db now formId)

/-- Insertion step of the stable descending sort: walk past strictly higher
priorities, so an element never moves ahead of an equal-priority one that was
loaded earlier. -/
def insertDesc (x : EligibleClient) : List EligibleClient → List EligibleClient
  | [] => [x]
  | y :: ys =>
    if x.effectivePriority < y.effectivePriority then y :: insertDesc x ys
    else x :: y :: ys

/-- Stable sort by effective priority, highest first — the behaviour of the
ES2019 stable `Array.prototype.sort` under the comparator
`(a, b) => b.effectivePriority - a.effectivePriority`. -/
def sortByPriorityDesc : List EligibleClient → List EligibleClient
  | [] => []
  | x :: xs => insertDesc x (sortByPriorityDesc xs)

/-- `getEligibleClients(formId)` against the store `db` at time `now`. -/
def getEligibleClients (db : Db) (now : Int) (formId : String) : List EligibleClient :=
  sortByPriorityDesc (eligibleCore db now formId)

/-- `selectClient`: `null` on an empty list, else the first element. -/
def selectClient (eligibleClients : List EligibleClient) : Option EligibleClient :=
  if eligibleClients.length = 0 then none else eligibleClients[0]?


/-! ## CRM distribution orchestrator (src lib/distribution: buildRequestBody,
distributeToClient, distributeSubmission) -/

/-- Submission metadata bag handed to the orchestrator. -/
structure SubMeta where
  formSlug : String
  formName : String
  ip : Option String
  userAgent : Option String
  referrer : Option String
  utm : Option (List (String × Option String))
  createdAt : String
deriving DecidableEq, Repr

/-- The metadata record used inside `buildRequestBody` (submission and form
ids merged in by `distributeSubmission`). -/
structure Meta where
  submissionId : String
  formId : String
  formSlug : String
  formName : String
  ip : Option String
  userAgent : Option String
  referrer : Option String
  utm : Option (List (String × Option String))
  createdAt : String
deriving DecidableEq, Repr

/-- `{ submissionId, formId, ...meta }`. -/
def mkMeta (submissionId formId : String) (m : SubMeta) : Meta :=
  { submissionId := submissionId
    formId := formId
    formSlug := m.formSlug
    formName := m.formName
    ip := m.ip
    userAgent := m.userAgent
    referrer := m.referrer
    utm := m.utm
    createdAt := m.createdAt }

/-- One collected answer (`{ questionKey, questionLabel, questionType,
value }`). -/
structure Answer where
  questionKey : String
  questionLabel : String
  questionType : String
  value : JVal
deriving DecidableEq, Repr

/-- A `string | null` metadata field as a JS value. -/
def optStrVal : Option String → JVal
  | some s => .str s
  | none => .null

/-- `meta.utm?.<key>`: `undefined` when `utm` is null or the key is absent,
`null` when the stored value is null. -/
def utmVal (utm : Option (List (String × Option String))) (key : String) : JVal :=
  match utm with
  | none => .undefinedVal
  | some u =>
    match u.lookup key with
    | some (some s) => .str s
    | some none => .null
    | none => .undefinedVal

/-- The `switch (metaKey)` of `buildRequestBody`: `none` for an unsupported
meta key (the switch falls through without assigning). -/
def metaValue (m : Meta) (metaKey : String) : Option JVal :=
  match metaKey with
  | "submissionId" => some (.str m.submissionId)
  | "formId" => some (.str m.formId)
  | "formSlug" => some (.str m.formSlug)
  | "formName" => some (.str m.formName)
  | "ip" => some (optStrVal m.ip)
  | "userAgent" => some (optStrVal m.userAgent)
  | "referrer" => some (optStrVal m.referrer)
  | "utm_source" => some (utmVal m.utm "source")
  | "utm_medium" => some (utmVal m.utm "medium")
  | "utm_campaign" => some (utmVal m.utm "campaign")
  | "createdAt" => some (.str m.createdAt)
  | _ => none

/-- JavaScript `s.startsWith(pre)`, on the character-list view of the
string. -/
def jsStartsWith (s pre : String) : Bool := pre.data.isPrefixOf s.data

/-- Dropping the first `n` characters of a string (the effect of
`formField.replace('_meta.', '')` on a string that starts with the
6-character prefix `_meta.`). -/
def jsDrop (s : String) (n : Nat) : String := ⟨s.data.drop n⟩

/-- Loop body of `buildRequestBody` for one `[formField, crmField]` mapping
entry: a `_meta.`-prefixed form field resolves against the metadata bag
(`formField.replace('_meta.', '')` is dropping the 6-character prefix),
any other form field resolves against the answers, skipping absent keys. -/
def buildStep (answers : List (String × Answer)) (m : Meta)
    (body : List (String × JVal)) (kv : String × String) : List (String × JVal) :=
  if jsStartsWith kv.1 "_meta." then
    match metaValue m (jsDrop kv.1 6) with
    | some v => objSet body kv.2 v
    | none => body
  else
    match answers.lookup kv.1 with
    | some a => objSet body kv.2 a.value
    | none => body

/-- `buildRequestBody(answers, fieldMapping, meta)`. -/
def buildRequestBody (answers : List (String × Answer))
    (fieldMapping : List (String × String)) (m : Meta) : List (String × JVal) :=
  fieldMapping.foldl (buildStep answers m) []

/-- Headers built by `distributeToClient`: JSON content type, then
`Object.assign(headers, client.headers)`, then the bearer Authorization
header when `client.apiKey` is truthy (a non-empty string). -/
def buildHeaders (clientHeaders : Option (List (String × String)))
    (apiKey : Option String) : List (String × String) :=
  let base : List (String × String) := [("Content-Type", "application/json")]
  let withCustom :=
    match clientHeaders with
    | some hs => hs.foldl (fun acc kv => objSet acc kv.1 kv.2) base
    | none => base
  match apiKey with
  | some key => if key == "" then withCustom else objSet withCustom "Authorization" ("Bearer " ++ key)
  | none => withCustom

/-- `JSON.parse(JSON.stringify(o))` / `JSON.stringify(o)` on a flat object:
properties whose value is `undefined` are dropped. -/
def jsonSanitize (o : List (String × JVal)) : List (String × JVal) :=
  o.filter (fun p => !(p.2 == JVal.undefinedVal))

/-- The single outbound HTTP request issued by `distributeToClient`. -/
structure HttpRequest where
  url : String
  method : String
  headers : List (String × String)
  body : List (String × JVal)
deriving DecidableEq, Repr

/-- `DistributionResult`. -/
structure DistributionResult where
  success : Bool
  clientId : Option String
  clientName : Option String
  deliveryId : Option Nat
  error : Option String
  responseStatus : Option Int
deriving DecidableEq, Repr

/-- Result of a distribution call together with the updated store and the
outbound requests that were issued. -/
structure DistOutcome where
  result : DistributionResult
  db : Db
  requests : List HttpRequest
deriving DecidableEq, Repr

/-- `prisma.crmDelivery.update({ where: { id }, data: ... })`. -/
def updateDeliveryRec (db : Db) (deliveryId : Nat) (f : CrmDelivery → CrmDelivery) : Db :=
  { db with deliveries := db.deliveries.map (fun d => if d.id == deliveryId then f d else d) }

/-- Catch-branch of `distributeToClient`: mark the delivery failed with one
attempt and the error message, and report the failure result. -/
def distributeFailure (db1 : Db) (deliveryId : Nat) (client : CrmClient)
    (req : HttpRequest) (errorMessage : String) : DistOutcome :=
  { result :=
      { success := false
        clientId := some client.id
        clientName := some client.name
        deliveryId := some deliveryId
        error := some errorMessage
        responseStatus := none }
    db := updateDeliveryRec db1 deliveryId
      (fun d => { d with success := false, attempts := 1, lastError := some errorMessage })
    requests := [req] }

/-- `distributeToClient(client, submissionId, formId, requestBody)`: create
the audit record first (its Prisma-generated id is modelled as the row
index), then issue exactly one HTTP request and finalise the record from the
outcome. -/
def distributeToClient (db : Db) (now : Int) (oracle : HttpRequest → FetchOutcome)
    (client : CrmClient) (submissionId formId : String)
    (requestBody : List (String × JVal)) : DistOutcome :=
  let deliveryId := db.deliveries.length
  let created : CrmDelivery :=
    { id := deliveryId
      clientId := client.id
      submissionId := submissionId
      formId := formId
      requestBody := jsonSanitize requestBody
      responseStatus := none
      responseBody := none
      success := false
      attempts := 0
      lastError := none
      createdAt := now }
  let db1 : Db := { db with deliveries := db.deliveries ++ [created] }
  let req : HttpRequest :=
    { url := client.apiUrl
      method := client.httpMethod
      headers := buildHeaders client.headers client.apiKey
      body := jsonSanitize requestBody }
  match oracle req with
  | .response status responseBody =>
    if responseOk status then
      { result :=
          { success := true
            clientId := some client.id
            clientName := some client.name
            deliveryId := some deliveryId
            error := none
            responseStatus := some status }
        db := updateDeliveryRec db1 deliveryId
          (fun d => { d with
            success := true
            responseStatus := some status
            responseBody := some (responseBody.take 2000)
            attempts := 1 })
        requests := [req] }
    else
      distributeFailure db1 deliveryId client req (httpErrorMsg status responseBody)
  | .netError msg => distributeFailure db1 deliveryId client req msg

/-- `Object.keys(fieldMapping).length > 0 ? fieldMapping :
Object.fromEntries(Object.keys(answers).map(key => [key, key]))`. -/
def effectiveMapping (fieldMapping : List (String × String))
    (answers : List (String × Answer)) : List (String × String) :=
  if 0 < fieldMapping.length then fieldMapping
  else answers.map (fun p => (p.1, p.1))

/-- `distributeSubmission(formId, submissionId, answers, meta)`. -/
def distributeSubmission (db : Db) (now : Int) (oracle : HttpRequest → FetchOutcome)
    (formId submissionId : String) (answers : List (String × Answer))
    (meta : SubMeta) : DistOutcome :=
  let eligibleClients := getEligibleClients db now formId
  if eligibleClients.length = 0 then
    { result :=
        { success := false
          clientId := none
          clientName := none
          deliveryId := none
          error := some "No eligible clients available (all quotas exhausted or no clients configured)"
          responseStatus := none }
      db := db
      requests := [] }
  else
    match selectClient eligibleClients with
    | none =>
      { result :=
          { success := false
            clientId := none
            clientName := none
            deliveryId := none
            error := some "No client selected"
            responseStatus := none }
        db := db
        requests := [] }
    | some selected =>
      let fieldMapping := selected.client.fieldMapping
      let effMapping := effectiveMapping fieldMapping answers
      let requestBody := buildRequestBody answers effMapping (mkMeta submissionId formId meta)
      distributeToClient db now oracle selected.client submissionId formId requestBody

/-! ## Concrete fixtures used by counterexamples and witnesses -/

/-- An enabled client with no quota rules. -/
def exClientA : CrmClient :=
  { id := "A"
    name := "Alpha"
    apiUrl := "http://a.test"
    apiKey := none
    httpMethod := "POST"
    headers := none
    fieldMapping := []
    enabled := true
    priority := 1
    quotas := [] }

/-- An enabled client with one quota rule and a higher priority. -/
def exClientB : CrmClient :=
  { id := "B"
    name := "Beta"
    apiUrl := "http://b.test"
    apiKey := none
    httpMethod := "POST"
    headers := none
    fieldMapping := []
    enabled := true
    priority := 5
    quotas := [{ id := "qB", leadLimit := 2, periodDays := 7 }] }

/-- Store whose only `FormDistributionClient` row for form `F` is disabled. -/
def exDbDisabledRow : Db :=
  { clients := [exClientA]
    formClients := [{ id := "fd1", formId := "F", clientId := "A", enabled := false, priority := none }]
    deliveries := [] }

/-- Open-pool store: two enabled clients, no `FormDistributionClient` rows,
no deliveries. -/
def exDbOpen : Db :=
  { clients := [exClientA, exClientB]
    formClients := []
    deliveries := [] }

/-- Empty store. -/
def exDbEmpty : Db :=
  { clients := [], formClients := [], deliveries := [] }

/-- Metadata fixture. -/
def exMeta : Meta :=
  { submissionId := "SUB-1"
    formId := "F"
    formSlug := "slug"
    formName := "Form"
    ip := none
    userAgent := none
    referrer := none
    utm := none
    createdAt := "2024-01-01T00:00:00Z" }

/-- Answers fixture whose single key collides with the reserved `_meta.`
namespace. -/
def exAnswersMetaKey : List (String × Answer) :=
  [("_meta.submissionId",
    { questionKey := "_meta.submissionId"
      questionLabel := "label"
      questionType := "text"
      value := .str "the-answer" })]

/-- Submission metadata fixture. -/
def exSubMeta : SubMeta :=
  { formSlug := "slug"
    formName := "Form"
    ip := none
    userAgent := none
    referrer := none
    utm := none
    createdAt := "2024-01-01T00:00:00Z" }

/-- The eligible entry produced for `exClientB` in `exDbOpen`. -/
def exEligB : EligibleClient :=
  { client := exClientB
    formClient := none
    effectivePriority := 5
    quotaStatus := [{ quotaId := "qB", leadLimit := 2, periodDays := 7,
                      currentCount := 0, remaining := 2, isAvailable := true }] }

/-- The eligible entry produced for `exClientA` in `exDbOpen`. -/
def exEligA : EligibleClient :=
  { client := exClientA
    formClient := none
    effectivePriority := 1
    quotaStatus := [] }

/-- Ordinary answer fixture. -/
def exAnswerEmail : Answer :=
  { questionKey := "email"
    questionLabel := "Email"
    questionType := "text"
    value := .str "a@b.com" }

/-! ## Proof development -/

theorem processWebhookDelivery_inv (now : Int) (o : FetchOutcome)
    (d : WebhookDelivery) (h : WebhookInv d) :
    WebhookInv (processWebhookDelivery now o d) := by
  unfold WebhookInv at h ⊢
  unfold processWebhookDelivery
  by_cases hg : (d.success || decide (MAX_ATTEMPTS ≤ d.attempts)) = true
  · simp [hg]
    exact h
  · have hs : d.success = false := by
      cases hsucc : d.success <;> simp [hsucc] at hg ⊢
    have ha : d.attempts < 3 := by
      simp [MAX_ATTEMPTS, hs] at hg
      omega
    simp only [hg]
    cases o with
    | response status body =>
      by_cases hok : responseOk status = true
      · simp [hok]
        omega
      · simp [hok, webhookFailureUpdate, hs]
        omega
    | netError msg =>
      simp [webhookFailureUpdate, hs]
      omega

theorem runWebhookSteps_inv (d : WebhookDelivery) (steps : List (Int × FetchOutcome))
    (h : WebhookInv d) : WebhookInv (runWebhookSteps d steps) := by
  induction steps generalizing d with
  | nil => exact h
  | cons s rest ih =>
    exact ih _ (processWebhookDelivery_inv s.1 s.2 d h)

theorem toBE32_length (w : Nat) : (toBE32 w).length = 4 := rfl

theorem hashToBytes_length (H : Hash8) : (hashToBytes H).length = 32 := rfl

theorem sha256_length (msg : List Nat) : (sha256 msg).length = 32 := rfl

theorem hmacSha256_length (key msg : List Nat) : (hmacSha256 key msg).length = 32 :=
  sha256_length _

theorem toBE32_mem_lt (w : Nat) : ∀ x ∈ toBE32 w, x < 256 := by
  simp only [toBE32, List.mem_cons, List.not_mem_nil, or_false]
  rintro x (rfl | rfl | rfl | rfl) <;> omega

theorem hashToBytes_mem_lt (H : Hash8) : ∀ x ∈ hashToBytes H, x < 256 := by
  simp only [hashToBytes, List.mem_append]
  rintro x (((((((h | h) | h) | h) | h) | h) | h) | h) <;> exact toBE32_mem_lt _ _ h

theorem sha256_mem_lt (msg : List Nat) : ∀ x ∈ sha256 msg, x < 256 :=
  hashToBytes_mem_lt _

theorem hexEncode_length (bs : List Nat) : (hexEncode bs).length = 2 * bs.length := by
  induction bs with
  | nil => rfl
  | cons b rest ih =>
    simp [hexEncode] at ih ⊢
    omega

theorem signPayload_length (payload secret : List Nat) :
    (signPayload payload secret).length = 71 := by
  simp [signPayload, sigHeaderBytes, hexEncode_length, hmacSha256_length]

theorem hmacSha256_mem_lt (key msg : List Nat) : ∀ x ∈ hmacSha256 key msg, x < 256 :=
  sha256_mem_lt _

theorem getD_mem_of_lt (l : List Nat) (i : Nat) (h : i < l.length) :
    l.getD i 0 ∈ l := by
  simp only [List.getD, List.get?_eq_getElem?, List.getElem?_eq_getElem h, Option.getD_some]
  exact List.getElem_mem h

theorem getD_eq_zero_of_ge (l : List Nat) (i : Nat) (h : l.length ≤ i) :
    l.getD i 0 = 0 := by
  simp [List.getD, List.get?_eq_getElem?, List.getElem?_eq_none h]

/-- Recover a digest byte from its index (both digests have 32 in-range
bytes, so pointwise equality of indexed bytes gives list equality). -/
theorem digest_ext {l1 l2 : List Nat} (h1 : l1.length = 32) (h2 : l2.length = 32)
    (hp : ∀ i : Fin 32, l1.getD i.val 0 = l2.getD i.val 0) : l1 = l2 := by
  apply List.ext_getElem (by omega)
  intro i hi1 hi2
  have hfin : i < 32 := by omega
  have := hp ⟨i, hfin⟩
  simpa [List.getD, List.get?_eq_getElem?, List.getElem?_eq_getElem, hi1, hi2] using this

/-- C10: `signPayload` always yields a 71-byte signature
(`sha256=` + 64 hex digits); `verifySignature` throws for any candidate
signature whose byte length differs from 71, and returns the byte-equality
boolean exactly when the candidate has length 71. -/
theorem C10_verifySignature_length_guard (payload signature secret : List Nat) :
    (signPayload payload secret).length = 71
    ∧ (signature.length ≠ 71 →
        verifySignature payload signature secret =
          .error "Input buffers must have the same byte length")
    ∧ (signature.length = 71 →
        verifySignature payload signature secret =
          .ok (signature == signPayload payload secret)) := by
  refine ⟨signPayload_length payload secret, ?_, ?_⟩
  · intro hne
    simp [verifySignature, timingSafeEqual, signPayload_length, hne]
  · intro heq
    simp [verifySignature, timingSafeEqual, signPayload_length, heq]

/-- Witness for C10: the empty candidate signature is rejected with a thrown
error, and a correctly sized candidate yields a boolean. -/
theorem C10_verifySignature_length_guard_witness :
    verifySignature [48] [] [] = .error "Input buffers must have the same byte length" :=
  (C10_verifySignature_length_guard [48] [] []).2.1 (by decide)

/-- C4 (amended): the signature round-trip verifies for every payload and
secret; a tampered payload fails verification exactly when its signature
differs from the original's — which is the case for all known inputs but
cannot hold universally, since HMAC-SHA256 digests collide by counting. -/
theorem C4_signature_roundtrip_amended :
    (∀ payload secret : List Nat,
      verifySignature payload (signPayload payload secret) secret = .ok true)
    ∧ (∀ payload payload' secret : List Nat,
        signPayload payload' secret ≠ signPayload payload secret →
        verifySignature payload' (signPayload payload secret) secret = .ok false) := by
  constructor
  · intro payload secret
    simp [verifySignature, timingSafeEqual]
  · intro payload payload' secret hne
    have h1 := signPayload_length payload secret
    have h2 := signPayload_length payload' secret
    simp [verifySignature, timingSafeEqual, h1, h2]
    exact fun h => absurd h.symm hne

set_option maxRecDepth 100000 in
/-- Witness for C4's amended tamper clause at a concrete one-byte change. -/
theorem C4_signature_roundtrip_amended_witness :
    verifySignature [49] (signPayload [48] []) [] = .ok false :=
  C4_signature_roundtrip_amended.2 [48] [49] [] (by decide)

/-- C4 (counterexample to the claim as stated): it is not the case that every
same-length alteration of a payload fails verification — by counting, two
distinct 33-byte payloads share an HMAC-SHA256 digest, and the altered one
then verifies against the original's signature. -/
theorem C4_tamper_detection_counterexample :
    ¬ (∀ payload payload' secret : List Nat,
        (∀ x ∈ payload, x < 256) → (∀ x ∈ payload', x < 256) →
        payload.length = payload'.length → payload ≠ payload' →
        verifySignature payload' (signPayload payload secret) secret = .ok false) := by
  intro hclaim
  have hcard : Fintype.card (Fin 32 → Fin 256) < Fintype.card (Fin 33 → Fin 256) := by
    simp only [Fintype.card_fun, Fintype.card_fin]
    exact Nat.pow_lt_pow_succ (by omega)
  obtain ⟨p, q, hpq, heq⟩ :=
    Fintype.exists_ne_map_eq_of_card_lt
      (fun (p : Fin 33 → Fin 256) (i : Fin 32) =>
        (⟨(hmacSha256 [] (List.ofFn (fun j => (p j).val))).getD i.val 0 % 256,
          Nat.mod_lt _ (by omega)⟩ : Fin 256))
      hcard
  have hdig : hmacSha256 [] (List.ofFn (fun j => (p j).val)) =
      hmacSha256 [] (List.ofFn (fun j => (q j).val)) := by
    apply digest_ext (hmacSha256_length _ _) (hmacSha256_length _ _)
    intro i
    have := congrFun heq i
    have hlt1 : (hmacSha256 [] (List.ofFn (fun j => ((p j) : Fin 256).val))).getD i.val 0 < 256 := by
      rcases Nat.lt_or_ge i.val (hmacSha256 [] (List.ofFn (fun j => ((p j) : Fin 256).val))).length with h | h
      · exact hmacSha256_mem_lt _ _ _ (getD_mem_of_lt _ _ h)
      · rw [getD_eq_zero_of_ge _ _ h]
        omega
    have hlt2 : (hmacSha256 [] (List.ofFn (fun j => ((q j) : Fin 256).val))).getD i.val 0 < 256 := by
      rcases Nat.lt_or_ge i.val (hmacSha256 [] (List.ofFn (fun j => ((q j) : Fin 256).val))).length with h | h
      · exact hmacSha256_mem_lt _ _ _ (getD_mem_of_lt _ _ h)
      · rw [getD_eq_zero_of_ge _ _ h]
        omega
    have hmod := congrArg Fin.val this
    simp only [Nat.mod_eq_of_lt hlt1, Nat.mod_eq_of_lt hlt2] at hmod
    exact hmod
  have hsig : signPayload (List.ofFn (fun j => ((p j) : Fin 256).val)) [] =
      signPayload (List.ofFn (fun j => ((q j) : Fin 256).val)) [] := by
    simp only [signPayload, hdig]
  have hne : List.ofFn (fun j => ((p j) : Fin 256).val) ≠
      List.ofFn (fun j => ((q j) : Fin 256).val) := by
    intro h
    apply hpq
    have := List.ofFn_injective h
    funext j
    exact Fin.ext (congrFun this j)
  have hfalse := hclaim (List.ofFn (fun j => ((p j) : Fin 256).val))
      (List.ofFn (fun j => ((q j) : Fin 256).val)) []
      (by intro x hx; obtain ⟨j, rfl⟩ := Set.mem_range.mp ((List.mem_ofFn _ _).mp hx); exact (p j).isLt)
      (by intro x hx; obtain ⟨j, rfl⟩ := Set.mem_range.mp ((List.mem_ofFn _ _).mp hx); exact (q j).isLt)
      (by simp) hne
  rw [hsig] at hfalse
  have htrue : verifySignature (List.ofFn (fun j => ((q j) : Fin 256).val))
      (signPayload (List.ofFn (fun j => ((q j) : Fin 256).val)) [])
      [] = .ok true := by
    simp [verifySignature, timingSafeEqual]
  rw [hfalse] at htrue
  exact Bool.false_ne_true (Except.ok.inj htrue)

/-- C3: starting from any record created by `enqueueWebhook`, every state
reachable through `processWebhookDelivery` invocations satisfies
`attempts ≤ 3` and `success = true → nextAttemptAt = none`; three consecutive
failed attempts end with `attempts = 3`, `success = false`,
`nextAttemptAt = none` and every further invocation is a no-op; a success on
the second attempt ends with `attempts = 2`, `success = true`,
`nextAttemptAt = none`. -/
theorem C3_webhook_invariants (now : Int) (fId sId url pl : String)
    (steps : List (Int × FetchOutcome)) :
    (runWebhookSteps (enqueueWebhook now fId sId url pl) steps).attempts ≤ 3
    ∧ ((runWebhookSteps (enqueueWebhook now fId sId url pl) steps).success = true →
        (runWebhookSteps (enqueueWebhook now fId sId url pl) steps).nextAttemptAt = none)
    ∧ (∀ t1 t2 t3 : Int, ∀ e1 e2 e3 : String,
        (runWebhookSteps (enqueueWebhook now fId sId url pl)
            [(t1, .netError e1), (t2, .netError e2), (t3, .netError e3)]).attempts = 3
        ∧ (runWebhookSteps (enqueueWebhook now fId sId url pl)
            [(t1, .netError e1), (t2, .netError e2), (t3, .netError e3)]).success = false
        ∧ (runWebhookSteps (enqueueWebhook now fId sId url pl)
            [(t1, .netError e1), (t2, .netError e2), (t3, .netError e3)]).nextAttemptAt = none
        ∧ (∀ t4 : Int, ∀ o4 : FetchOutcome,
            processWebhookDelivery t4 o4
              (runWebhookSteps (enqueueWebhook now fId sId url pl)
                [(t1, .netError e1), (t2, .netError e2), (t3, .netError e3)]) =
            runWebhookSteps (enqueueWebhook now fId sId url pl)
              [(t1, .netError e1), (t2, .netError e2), (t3, .netError e3)]))
    ∧ (∀ t1 t2 : Int, ∀ e1 body : String, ∀ status : Int, responseOk status = true →
        (runWebhookSteps (enqueueWebhook now fId sId url pl)
            [(t1, .netError e1), (t2, .response status body)]).attempts = 2
        ∧ (runWebhookSteps (enqueueWebhook now fId sId url pl)
            [(t1, .netError e1), (t2, .response status body)]).success = true
        ∧ (runWebhookSteps (enqueueWebhook now fId sId url pl)
            [(t1, .netError e1), (t2, .response status body)]).nextAttemptAt = none) := by
  refine ⟨?_, ?_, ?_, ?_⟩
  · exact (runWebhookSteps_inv _ steps (by simp [enqueueWebhook, WebhookInv])).1
  · exact (runWebhookSteps_inv _ steps (by simp [enqueueWebhook, WebhookInv])).2
  · intro t1 t2 t3 e1 e2 e3
    refine ⟨?_, ?_, ?_, ?_⟩ <;>
      simp [runWebhookSteps, processWebhookDelivery, webhookFailureUpdate,
        enqueueWebhook, MAX_ATTEMPTS, retryDelay, jsOrInt, RETRY_DELAYS]
  · intro t1 t2 e1 body status hok
    refine ⟨?_, ?_, ?_⟩ <;>
      simp [runWebhookSteps, processWebhookDelivery, webhookFailureUpdate,
        enqueueWebhook, MAX_ATTEMPTS, retryDelay, jsOrInt, RETRY_DELAYS, hok]

/-- Witness for C3 at a concrete record and trace. -/
theorem C3_webhook_invariants_witness :
    (runWebhookSteps (enqueueWebhook 0 "f" "s" "http://x" "p")
        [(1, .netError "boom"), (2, .response 200 "ok")]).attempts = 2
    ∧ (runWebhookSteps (enqueueWebhook 0 "f" "s" "http://x" "p")
        [(1, .netError "boom"), (2, .response 200 "ok")]).success = true
    ∧ (runWebhookSteps (enqueueWebhook 0 "f" "s" "http://x" "p")
        [(1, .netError "boom"), (2, .response 200 "ok")]).nextAttemptAt = none :=
  (C3_webhook_invariants 0 "f" "s" "http://x" "p" []).2.2.2 1 2 "boom" "ok" 200 (by decide)

/-- C8: a failed attempt (transport error, or a non-2xx response) on a
non-terminal record increments `attempts`, persists the error message
(status-prefixed for HTTP failures), clears the stored response fields, and
sets `nextAttemptAt` to `now` plus the scheduled delay indexed by the new
attempt count when attempts remain, `none` when the new count reaches 3; the
schedule is 1s, 5s, 25s with the last entry reused beyond the table. -/
theorem C8_webhook_failure_path (now : Int) (d : WebhookDelivery)
    (status : Int) (body msg : String)
    (hs : d.success = false) (ha : d.attempts < 3) (hnok : responseOk status = false) :
    processWebhookDelivery now (.netError msg) d = webhookFailureUpdate now msg d
    ∧ processWebhookDelivery now (.response status body) d =
        webhookFailureUpdate now (httpErrorMsg status body) d
    ∧ (webhookFailureUpdate now msg d).attempts = d.attempts + 1
    ∧ (webhookFailureUpdate now msg d).lastError = some msg
    ∧ (webhookFailureUpdate now msg d).responseStatus = none
    ∧ (webhookFailureUpdate now msg d).responseBodyText = none
    ∧ (d.attempts + 1 < 3 →
        (webhookFailureUpdate now msg d).nextAttemptAt =
          some (now + retryDelay (d.attempts + 1)))
    ∧ (d.attempts + 1 = 3 → (webhookFailureUpdate now msg d).nextAttemptAt = none)
    ∧ retryDelay 1 = 1000 ∧ retryDelay 2 = 5000 ∧ retryDelay 3 = 25000
    ∧ (∀ n : Nat, 3 ≤ n → retryDelay n = 25000) := by
  have hguard : (d.success || decide (MAX_ATTEMPTS ≤ d.attempts)) = false := by
    simp [hs, MAX_ATTEMPTS]
    omega
  refine ⟨?_, ?_, ?_, ?_, ?_, ?_, ?_, ?_, by decide, by decide, by decide, ?_⟩
  · simp [processWebhookDelivery, hguard]
  · simp [processWebhookDelivery, hguard, hnok]
  · simp [webhookFailureUpdate]
  · simp [webhookFailureUpdate]
  · simp [webhookFailureUpdate]
  · simp [webhookFailureUpdate]
  · intro hlt
    simp [webhookFailureUpdate, MAX_ATTEMPTS, hlt]
  · intro heq
    simp [webhookFailureUpdate, MAX_ATTEMPTS, heq]
  · intro n hn
    rcases Nat.lt_or_ge n 4 with h4 | h4
    · interval_cases n
      · decide

    · have hidx : (([1000, 5000, 25000] : List Int))[n - 1]? = none := by
        apply List.getElem?_eq_none
        simp
        omega
      simp [retryDelay, jsOrInt, RETRY_DELAYS, hidx]

/-- Witness for C8 at a concrete non-terminal record and failure. -/
theorem C8_webhook_failure_path_witness :
    processWebhookDelivery 7 (.netError "boom") (enqueueWebhook 0 "f" "s" "http://x" "p") =
      webhookFailureUpdate 7 "boom" (enqueueWebhook 0 "f" "s" "http://x" "p")
    ∧ (webhookFailureUpdate 7 "boom" (enqueueWebhook 0 "f" "s" "http://x" "p")).attempts = 1 :=
  ⟨(C8_webhook_failure_path 7 (enqueueWebhook 0 "f" "s" "http://x" "p") 500 "b" "boom"
      (by decide) (by decide) (by decide)).1,
   (C8_webhook_failure_path 7 (enqueueWebhook 0 "f" "s" "http://x" "p") 500 "b" "boom"
      (by decide) (by decide) (by decide)).2.2.1⟩

theorem mem_insertDesc {x a : EligibleClient} {l : List EligibleClient} :
    a ∈ insertDesc x l ↔ a = x ∨ a ∈ l := by
  induction l with
  | nil => simp [insertDesc]
  | cons y ys ih =>
    by_cases hc : x.effectivePriority < y.effectivePriority
    · simp [insertDesc, hc, ih]
      tauto
    · simp [insertDesc, hc]

theorem insertDesc_perm (x : EligibleClient) (l : List EligibleClient) :
    List.Perm (insertDesc x l) (x :: l) := by
  induction l with
  | nil => simp [insertDesc]
  | cons y ys ih =>
    by_cases hc : x.effectivePriority < y.effectivePriority
    · simp only [insertDesc, hc, if_pos]
      exact (ih.cons y).trans (List.Perm.swap x y ys)
    · simp [insertDesc, hc]

theorem sortByPriorityDesc_perm (l : List EligibleClient) :
    List.Perm (sortByPriorityDesc l) l := by
  induction l with
  | nil => simp [sortByPriorityDesc]
  | cons x xs ih =>
    exact (insertDesc_perm x (sortByPriorityDesc xs)).trans (ih.cons x)

theorem pairwise_insertDesc {x : EligibleClient} {l : List EligibleClient}
    (h : l.Pairwise (fun u v => v.effectivePriority ≤ u.effectivePriority)) :
    (insertDesc x l).Pairwise (fun u v => v.effectivePriority ≤ u.effectivePriority) := by
  induction l with
  | nil => simp [insertDesc]
  | cons y ys ih =>
    rcases List.pairwise_cons.mp h with ⟨hy, hys⟩
    by_cases hc : x.effectivePriority < y.effectivePriority
    · simp only [insertDesc, hc, if_pos]
      refine List.pairwise_cons.mpr ⟨?_, ih hys⟩
      intro z hz
      rcases mem_insertDesc.mp hz with rfl | hz
      · omega
      · exact hy z hz
    · simp only [insertDesc, hc, if_neg hc]
      refine List.pairwise_cons.mpr ⟨?_, h⟩
      intro z hz
      rcases List.mem_cons.mp hz with rfl | hz
      · omega
      · have := hy z hz
        omega

theorem sortByPriorityDesc_sorted (l : List EligibleClient) :
    (sortByPriorityDesc l).Pairwise (fun u v => v.effectivePriority ≤ u.effectivePriority) := by
  induction l with
  | nil => simp [sortByPriorityDesc]
  | cons x xs ih => exact pairwise_insertDesc ih

theorem insertDesc_filter_self (x : EligibleClient) (l : List EligibleClient) :
    (insertDesc x l).filter (fun e => e.effectivePriority == x.effectivePriority) =
      x :: l.filter (fun e => e.effectivePriority == x.effectivePriority) := by
  induction l with
  | nil => simp [insertDesc]
  | cons y ys ih =>
    by_cases hc : x.effectivePriority < y.effectivePriority
    · have hy : (y.effectivePriority == x.effectivePriority) = false := by
        simp
        omega
      simp only [insertDesc, hc, if_pos, List.filter_cons, hy]
      simpa [hy] using ih
    · simp [insertDesc, hc]

theorem insertDesc_filter_ne (x : EligibleClient) (l : List EligibleClient) (p : Int)
    (hne : p ≠ x.effectivePriority) :
    (insertDesc x l).filter (fun e => e.effectivePriority == p) =
      l.filter (fun e => e.effectivePriority == p) := by
  induction l with
  | nil => simp [insertDesc, Ne.symm hne]
  | cons y ys ih =>
    by_cases hc : x.effectivePriority < y.effectivePriority
    · simp only [insertDesc, hc, if_pos, List.filter_cons]
      rw [ih]
    · simp [insertDesc, hc, List.filter_cons, Ne.symm hne]

theorem sortByPriorityDesc_filter (l : List EligibleClient) (p : Int) :
    (sortByPriorityDesc l).filter (fun e => e.effectivePriority == p) =
      l.filter (fun e => e.effectivePriority == p) := by
  induction l with
  | nil => simp [sortByPriorityDesc]
  | cons x xs ih =>
    by_cases hp : p = x.effectivePriority
    · subst hp
      simp only [sortByPriorityDesc, insertDesc_filter_self, List.filter_cons]
      simp [ih]
    · simp only [sortByPriorityDesc, insertDesc_filter_ne x _ p hp, List.filter_cons]
      have hx : (x.effectivePriority == p) = false := by
        simp
        exact fun h => hp h.symm
      simp [hx, ih]

theorem jsMapGet_foldl_isSome (fcs : List FormDistributionClient) (k : String)
    (acc : Option FormDistributionClient) :
    (fcs.foldl (fun acc fc => if fc.clientId == k then some fc else acc) acc).isSome = true ↔
      acc.isSome = true ∨ ∃ fc ∈ fcs, fc.clientId = k := by
  induction fcs generalizing acc with
  | nil => simp
  | cons fc rest ih =>
    simp only [List.foldl_cons]
    by_cases hc : (fc.clientId == k) = true
    · rw [if_pos hc, ih]
      simp only [beq_iff_eq] at hc
      simp [hc]
    · rw [if_neg hc, ih]
      simp only [beq_iff_eq] at hc
      simp [hc]

theorem jsMapGet_isSome (fcs : List FormDistributionClient) (k : String) :
    (jsMapGet fcs k).isSome = true ↔ ∃ fc ∈ fcs, fc.clientId = k := by
  unfold jsMapGet
  rw [jsMapGet_foldl_isSome]
  simp

theorem eligibleEntry_eq_some (db : Db) (now : Int) (formId : String)
    (c : CrmClient) (e : EligibleClient) :
    eligibleEntry db now formId c = some e ↔
      (passesAllowlist db formId c = true
       ∧ (checkClientQuotas db now c.id c.quotas).all (fun qs => qs.isAvailable) = true
       ∧ e = { client := c
               formClient := jsMapGet (enabledFormClients db formId) c.id
               effectivePriority := effPriority (jsMapGet (enabledFormClients db formId) c.id) c
               quotaStatus := checkClientQuotas db now c.id c.quotas }) := by
  unfold eligibleEntry passesAllowlist
  by_cases hg : (decide (0 < (enabledFormClients db formId).length)
      && (jsMapGet (enabledFormClients db formId) c.id).isNone) = true
  · simp [hg]
  · simp only [Bool.not_eq_true] at hg
    simp only [hg, Bool.false_eq_true, if_false, Bool.not_false, true_and]
    by_cases hq : (checkClientQuotas db now c.id c.quotas).all (fun qs => qs.isAvailable) = true
    · simp [hq, eq_comm]
    · simp [hq]

theorem quotas_all_iff (db : Db) (now : Int) (clientId : String) (quotas : List CrmQuota) :
    (checkClientQuotas db now clientId quotas).all (fun qs => qs.isAvailable) = true ↔
      ∀ q ∈ quotas,
        0 < q.leadLimit -
          (countSuccessfulDeliveries db clientId (now - q.periodDays * msPerDay) : Int) := by
  simp [checkClientQuotas, List.all_map, List.all_eq_true, Function.comp]

theorem mem_eligibleCore (db : Db) (now : Int) (formId : String) (c : CrmClient) :
    (∃ e ∈ eligibleCore db now formId, e.client = c) ↔
      (c ∈ db.clients ∧ c.enabled = true ∧ passesAllowlist db formId c = true
       ∧ (checkClientQuotas db now c.id c.quotas).all (fun qs => qs.isAvailable) = true) := by
  constructor
  · rintro ⟨e, he, rfl⟩
    obtain ⟨a, ha, hae⟩ := List.mem_filterMap.mp he
    obtain ⟨hall, hq, hrec⟩ := (eligibleEntry_eq_some db now formId a e).mp hae
    obtain ⟨ham, haen⟩ := List.mem_filter.mp ha
    have hclient : e.client = a := by rw [hrec]
    rw [hclient]
    exact ⟨ham, by simpa using haen, hall, hq⟩
  · rintro ⟨hmem, hen, hall, hq⟩
    refine ⟨{ client := c
              formClient := jsMapGet (enabledFormClients db formId) c.id
              effectivePriority := effPriority (jsMapGet (enabledFormClients db formId) c.id) c
              quotaStatus := checkClientQuotas db now c.id c.quotas }, ?_, rfl⟩
    apply List.mem_filterMap.mpr
    refine ⟨c, List.mem_filter.mpr ⟨hmem, by simpa using hen⟩, ?_⟩
    exact (eligibleEntry_eq_some db now formId c _).mpr ⟨hall, hq, rfl⟩

theorem passesAllowlist_iff (db : Db) (formId : String) (c : CrmClient) :
    passesAllowlist db formId c = true ↔
      enabledFormClients db formId = []
      ∨ ∃ fc ∈ enabledFormClients db formId, fc.clientId = c.id := by
  rw [← jsMapGet_isSome]
  unfold passesAllowlist
  by_cases hnil : enabledFormClients db formId = []
  · simp [hnil, jsMapGet]
  · have hlen : 0 < (enabledFormClients db formId).length := List.length_pos.mpr hnil
    simp only [hlen, decide_eq_true_eq, hnil, false_or]
    cases h : jsMapGet (enabledFormClients db formId) c.id <;> simp [h, hlen]

/-- C1: an enabled client that passes the allowlist filter appears in the
eligible list iff it has zero quota rules or every one of its quota rules is
satisfied, a rule being satisfied iff `leadLimit` minus the count of
successful deliveries inside its trailing window is strictly positive
(conjunctive over all rules). -/
theorem C1_quota_conjunction (db : Db) (now : Int) (formId : String) (c : CrmClient)
    (hmem : c ∈ db.clients) (hen : c.enabled = true)
    (hallow : passesAllowlist db formId c = true) :
    (∃ e ∈ getEligibleClients db now formId, e.client = c) ↔
      (c.quotas = [] ∨ ∀ q ∈ c.quotas,
        0 < q.leadLimit -
          (countSuccessfulDeliveries db c.id (now - q.periodDays * msPerDay) : Int)) := by
  have hperm := sortByPriorityDesc_perm (eligibleCore db now formId)
  simp only [getEligibleClients]
  constructor
  · rintro ⟨e, he, rfl⟩
    have hec : ∃ e' ∈ eligibleCore db now formId, e'.client = e.client :=
      ⟨e, hperm.mem_iff.mp he, rfl⟩
    obtain ⟨_, _, _, hq⟩ := (mem_eligibleCore db now formId e.client).mp hec
    exact Or.inr ((quotas_all_iff db now e.client.id e.client.quotas).mp hq)
  · intro h
    have hq : ∀ q ∈ c.quotas,
        0 < q.leadLimit -
          (countSuccessfulDeliveries db c.id (now - q.periodDays * msPerDay) : Int) := by
      rcases h with h | h
      · intro q hqm
        rw [h] at hqm
        simp at hqm
      · exact h
    obtain ⟨e, he, hec⟩ := (mem_eligibleCore db now formId c).mpr
      ⟨hmem, hen, hallow, (quotas_all_iff db now c.id c.quotas).mpr hq⟩
    exact ⟨e, hperm.mem_iff.mpr he, hec⟩

/-- Witness for C1: in the open pool with no prior deliveries, the quota-free
client A is eligible. -/
theorem C1_quota_conjunction_witness :
    ∃ e ∈ getEligibleClients exDbOpen 0 "F", e.client = exClientA :=
  (C1_quota_conjunction exDbOpen 0 "F" exClientA (by decide) (by decide) (by decide)).mpr
    (by decide)

/-- C5 (counterexample to the claim as stated): form `F` has exactly one
`FormDistributionClient` row, that row is disabled, so per the claim no
client should pass the allowlist filter — yet client A passes it and is
eligible, because the code only queries rows with `enabled: true` and treats
the all-disabled form as an open pool. -/
theorem C5_allowlist_counterexample :
    (exDbDisabledRow.formClients.filter (fun fc => fc.formId == "F")).length = 1
    ∧ ¬ (∃ fc ∈ exDbDisabledRow.formClients,
          fc.formId = "F" ∧ fc.enabled = true ∧ fc.clientId = exClientA.id)
    ∧ passesAllowlist exDbDisabledRow "F" exClientA = true
    ∧ ∃ e ∈ getEligibleClients exDbDisabledRow 0 "F", e.client = exClientA := by
  decide

/-- C5 (amended): the open pool applies when the form has no **enabled**
`FormDistributionClient` row; when it has at least one enabled row, an
enabled client passes the allowlist filter iff it has an enabled row of its
own for the form.  (A form whose rows are all disabled therefore behaves as
an open pool.) -/
theorem C5_allowlist_amended (db : Db) (formId : String) (c : CrmClient)
    (_hmem : c ∈ db.clients) (_hen : c.enabled = true) :
    (enabledFormClients db formId = [] → passesAllowlist db formId c = true)
    ∧ (enabledFormClients db formId ≠ [] →
        (passesAllowlist db formId c = true ↔
          ∃ fc ∈ db.formClients, fc.formId = formId ∧ fc.enabled = true ∧ fc.clientId = c.id)) := by
  constructor
  · intro hnil
    exact (passesAllowlist_iff db formId c).mpr (Or.inl hnil)
  · intro hne
    rw [passesAllowlist_iff]
    constructor
    · rintro (h | ⟨fc, hfc, hid⟩)
      · exact absurd h hne
      · obtain ⟨hmemfc, hflag⟩ := List.mem_filter.mp hfc
        simp only [Bool.and_eq_true, beq_iff_eq] at hflag
        exact ⟨fc, hmemfc, hflag.1, hflag.2, hid⟩
    · rintro ⟨fc, hmemfc, hfid, hfen, hid⟩
      refine Or.inr ⟨fc, List.mem_filter.mpr ⟨hmemfc, ?_⟩, hid⟩
      simp [hfid, hfen]

/-- Witness for C5's amended statement: open pool on a store without enabled
rows, allowlist on a store with one enabled row. -/
theorem C5_allowlist_amended_witness :
    passesAllowlist exDbDisabledRow "F" exClientA = true :=
  (C5_allowlist_amended exDbDisabledRow "F" exClientA (by decide) (by decide)).1 (by decide)

theorem distributeToClient_clientId (db : Db) (now : Int)
    (oracle : HttpRequest → FetchOutcome) (client : CrmClient)
    (submissionId formId : String) (requestBody : List (String × JVal)) :
    (distributeToClient db now oracle client submissionId formId requestBody).result.clientId =
      some client.id := by
  unfold distributeToClient
  dsimp only
  split
  · split
    · rfl
    · simp [distributeFailure]
  · simp [distributeFailure]

/-- C2: the eligible list is sorted by effective priority descending; each
entry's effective priority is the per-form override when the (enabled)
`FormDistributionClient` row exists with a non-null priority, else the
client's own priority; ties preserve load order (the filter at any fixed
priority equals that of the unsorted load-order list); and
`distributeSubmission` selects the head of the list. -/
theorem C2_priority_sort (db : Db) (now : Int) (formId : String) :
    (getEligibleClients db now formId).Pairwise
        (fun u v => v.effectivePriority ≤ u.effectivePriority)
    ∧ (∀ e ∈ getEligibleClients db now formId,
        e.formClient = jsMapGet (enabledFormClients db formId) e.client.id
        ∧ e.effectivePriority = effPriority e.formClient e.client)
    ∧ (∀ p : Int,
        (getEligibleClients db now formId).filter (fun e => e.effectivePriority == p) =
          (eligibleCore db now formId).filter (fun e => e.effectivePriority == p))
    ∧ selectClient (getEligibleClients db now formId) =
        (getEligibleClients db now formId).head?
    ∧ (∀ oracle : HttpRequest → FetchOutcome, ∀ submissionId : String,
        ∀ answers : List (String × Answer), ∀ meta : SubMeta,
        ∀ e : EligibleClient, ∀ rest : List EligibleClient,
        getEligibleClients db now formId = e :: rest →
        (distributeSubmission db now oracle formId submissionId answers meta).result.clientId =
          some e.client.id) := by
  refine ⟨sortByPriorityDesc_sorted _, ?_, sortByPriorityDesc_filter _, ?_, ?_⟩
  · intro e he
    have hec := (sortByPriorityDesc_perm (eligibleCore db now formId)).mem_iff.mp he
    obtain ⟨a, _, hae⟩ := List.mem_filterMap.mp hec
    obtain ⟨_, _, hrec⟩ := (eligibleEntry_eq_some db now formId a e).mp hae
    subst hrec
    exact ⟨rfl, rfl⟩
  · cases h : getEligibleClients db now formId with
    | nil => simp [selectClient]
    | cons x xs => simp [selectClient]
  · intro oracle submissionId answers meta e rest hcons
    unfold distributeSubmission
    rw [hcons]
    simp only [List.length_cons, selectClient]
    rw [if_neg (by simp)]
    rw [if_neg (by simp)]
    simp only [List.getElem?_cons_zero]
    exact distributeToClient_clientId db now oracle e.client submissionId formId _

/-- Witness for C2 at the open-pool fixture: client B (priority 5) is at the
head and receives the submission. -/
theorem C2_priority_sort_witness :
    (distributeSubmission exDbOpen 0 (fun _ => .response 200 "") "F" "S" [] exSubMeta).result.clientId =
      some exClientB.id :=
  (C2_priority_sort exDbOpen 0 "F").2.2.2.2 (fun _ => .response 200 "") "S" [] exSubMeta
    exEligB [exEligA] (by decide)

theorem lookup_map_set {α : Type} (o : List (String × α)) (k : String) (v : α) :
    (o.map (fun p => if p.1 == k then (k, v) else p)).lookup k =
      if o.any (fun p => p.1 == k) then some v else none := by
  induction o with
  | nil => simp
  | cons p rest ih =>
    simp only [List.map_cons, List.any_cons]
    by_cases hp : p.1 = k
    · rw [if_pos (show (p.1 == k) = true by simp [hp])]
      simp [List.lookup, hp]
    · have h1 : (p.1 == k) = false := by simp [hp]
      have h2 : (k == p.1) = false := by
        rw [beq_eq_false_iff_ne]
        exact Ne.symm hp
      rw [if_neg (show ¬((p.1 == k) = true) by simp [h1])]
      simp only [List.lookup, h1, h2, Bool.false_or]
      exact ih

theorem lookup_append_of_not_any {α : Type} (o l2 : List (String × α)) (k : String)
    (h : o.any (fun p => p.1 == k) = false) : (o ++ l2).lookup k = l2.lookup k := by
  induction o with
  | nil => simp
  | cons p rest ih =>
    simp only [List.any_cons, Bool.or_eq_false_iff] at h
    have h2 : (k == p.1) = false := by
      rw [beq_eq_false_iff_ne]
      intro hh
      rw [beq_eq_false_iff_ne] at h
      exact h.1 hh.symm
    simp only [List.cons_append, List.lookup, h2]
    exact ih h.2

theorem lookup_objSet_self {α : Type} (o : List (String × α)) (k : String) (v : α) :
    (objSet o k v).lookup k = some v := by
  unfold objSet
  by_cases h : o.any (fun p => p.1 == k) = true
  · rw [if_pos h, lookup_map_set, if_pos h]
  · simp only [Bool.not_eq_true] at h
    rw [if_neg (by simp [h]), lookup_append_of_not_any o _ k h]
    simp [List.lookup]

theorem lookup_map_set_ne {α : Type} (o : List (String × α)) (k : String) (v : α)
    (k' : String) (hne : k' ≠ k) :
    (o.map (fun p => if p.1 == k then (k, v) else p)).lookup k' = o.lookup k' := by
  induction o with
  | nil => simp
  | cons p rest ih =>
    simp only [List.map_cons]
    by_cases hp : p.1 = k
    · have h1 : (k' == k) = false := by
        rw [beq_eq_false_iff_ne]
        exact hne
      have h2 : (k' == p.1) = false := by
        rw [beq_eq_false_iff_ne, hp]
        exact hne
      rw [if_pos (show (p.1 == k) = true by simp [hp])]
      simp only [List.lookup, h1, h2]
      exact ih
    · rw [if_neg (show ¬((p.1 == k) = true) by simp [hp])]
      cases hkp : k' == p.1
      · simp only [List.lookup, hkp]
        exact ih
      · simp only [List.lookup, hkp]

theorem lookup_objSet_ne {α : Type} (o : List (String × α)) (k : String) (v : α)
    (k' : String) (hne : k' ≠ k) : (objSet o k v).lookup k' = o.lookup k' := by
  unfold objSet
  by_cases h : o.any (fun p => p.1 == k) = true
  · rw [if_pos h, lookup_map_set_ne o k v k' hne]
  · rw [if_neg h]
    have h1 : (k' == k) = false := by
      rw [beq_eq_false_iff_ne]
      exact hne
    induction o with
    | nil => simp [List.lookup, h1]
    | cons p rest ih =>
      by_cases hp : k' = p.1
      · simp [List.lookup, hp]
      · have h2 : (k' == p.1) = false := by
          rw [beq_eq_false_iff_ne]
          exact hp
        simp only [List.cons_append, List.lookup, h2]
        apply ih
        intro hany
        exact h (by simp [List.any_cons, hany])

theorem lookup_eq_none_of_not_mem {α : Type} (l : List (String × α)) (k : String)
    (h : k ∉ l.map Prod.fst) : l.lookup k = none := by
  induction l with
  | nil => simp
  | cons p rest ih =>
    simp only [List.map_cons, List.mem_cons, not_or] at h
    have hp : (k == p.1) = false := by
      rw [beq_eq_false_iff_ne]
      exact h.1
    simp only [List.lookup, hp]
    exact ih h.2

theorem lookup_foldl_objSet {α : Type} (cs : List (String × α)) (base : List (String × α))
    (k : String) (hnodup : (cs.map Prod.fst).Nodup) :
    (cs.foldl (fun acc kv => objSet acc kv.1 kv.2) base).lookup k =
      match cs.lookup k with
      | some v => some v
      | none => base.lookup k := by
  induction cs generalizing base with
  | nil => simp
  | cons kv rest ih =>
    simp only [List.map_cons, List.nodup_cons] at hnodup
    obtain ⟨hnotin, hnd⟩ := hnodup
    simp only [List.foldl_cons]
    rw [ih _ hnd]
    by_cases hk : k = kv.1
    · have hrest : rest.lookup k = none := by
        apply lookup_eq_none_of_not_mem
        rw [hk]
        exact hnotin
      have hkb : (k == kv.1) = true := by simp [hk]
      rw [hrest]
      simp only [List.lookup, hkb]
      rw [hk]
      exact lookup_objSet_self base kv.1 kv.2
    · have hkb : (k == kv.1) = false := by
        rw [beq_eq_false_iff_ne]
        exact hk
      cases hr : rest.lookup k with
      | some v => simp [List.lookup, hkb, hr]
      | none => simp [List.lookup, hkb, hr, lookup_objSet_ne base kv.1 kv.2 k hk]

/-- C6 (amended): the outbound request's headers are the JSON content type
shallow-merged with the client's custom headers and a bearer Authorization
header when an API key is configured — with the custom headers winning on a
Content-Type collision (`Object.assign` overwrites the default). -/
theorem C6_headers_amended :
    (∀ custom : Option (List (String × String)), ∀ apiKey : Option String,
      ((custom.getD []).map Prod.fst).Nodup →
      (buildHeaders custom apiKey).lookup "Content-Type" =
        some (((custom.getD []).lookup "Content-Type").getD "application/json"))
    ∧ (∀ custom : Option (List (String × String)), ∀ key : String, key ≠ "" →
        (buildHeaders custom (some key)).lookup "Authorization" = some ("Bearer " ++ key))
    ∧ (∀ db : Db, ∀ now : Int, ∀ oracle : HttpRequest → FetchOutcome, ∀ client : CrmClient,
        ∀ submissionId formId : String, ∀ requestBody : List (String × JVal),
        (distributeToClient db now oracle client submissionId formId requestBody).requests =
          [{ url := client.apiUrl
             method := client.httpMethod
             headers := buildHeaders client.headers client.apiKey
             body := jsonSanitize requestBody }]) := by
  have hct : ∀ hs : List (String × String), (hs.map Prod.fst).Nodup →
      (hs.foldl (fun acc kv => objSet acc kv.1 kv.2)
          [("Content-Type", "application/json")]).lookup "Content-Type" =
        some ((hs.lookup "Content-Type").getD "application/json") := by
    intro hs hnd
    rw [lookup_foldl_objSet hs _ "Content-Type" hnd]
    cases hr : hs.lookup "Content-Type" with
    | some v => simp
    | none => simp [List.lookup]
  refine ⟨?_, ?_, ?_⟩
  · intro custom apiKey hnd
    cases custom with
    | none =>
      cases apiKey with
      | none => simp [buildHeaders, List.lookup]
      | some key =>
        unfold buildHeaders
        dsimp only
        by_cases hk : (key == "") = true
        · rw [if_pos hk]
          simp [List.lookup]
        · rw [if_neg (show ¬((key == "") = true) by simp [hk])]
          rw [lookup_objSet_ne _ _ _ _ (by decide)]
          simp [List.lookup]
    | some hs =>
      simp only [Option.getD_some] at hnd ⊢
      cases apiKey with
      | none =>
        unfold buildHeaders
        dsimp only
        exact hct hs hnd
      | some key =>
        unfold buildHeaders
        dsimp only
        by_cases hk : (key == "") = true
        · rw [if_pos hk]
          exact hct hs hnd
        · rw [if_neg (show ¬((key == "") = true) by simp [hk])]
          rw [lookup_objSet_ne _ _ _ _ (by decide)]
          exact hct hs hnd
  · intro custom key hkey
    unfold buildHeaders
    have hk : (key == "") = false := by
      simp [beq_eq_false_iff_ne]
      exact hkey
    simp only [hk, Bool.false_eq_true, if_false]
    exact lookup_objSet_self _ _ _
  · intro db now oracle client submissionId formId requestBody
    unfold distributeToClient
    dsimp only
    split
    · split
      · rfl
      · simp [distributeFailure]
    · simp [distributeFailure]

/-- Witness for C6 (amended) at concrete header maps. -/
theorem C6_headers_amended_witness :
    (buildHeaders (some [("X-Api", "1")]) (some "KEY")).lookup "Authorization" =
      some ("Bearer " ++ "KEY")
    ∧ (buildHeaders (some [("Content-Type", "text/xml")]) none).lookup "Content-Type" =
        some "text/xml" :=
  ⟨C6_headers_amended.2.1 (some [("X-Api", "1")]) "KEY" (by decide),
   by
    have h := C6_headers_amended.1 (some [("Content-Type", "text/xml")]) none (by decide)
    simpa using h⟩

/-- C6 (counterexample to the claim as stated): a custom header map that
itself defines Content-Type **does** override the JSON default
(`Object.assign(headers, client.headers)` copies over the target). -/
theorem C6_content_type_counterexample :
    (buildHeaders (some [("Content-Type", "text/xml")]) none).lookup "Content-Type" ≠
      some "application/json" := by decide

theorem objSet_append_of_not_any {α : Type} (o : List (String × α)) (k : String) (v : α)
    (h : o.any (fun p => p.1 == k) = false) : objSet o k v = o ++ [(k, v)] := by
  unfold objSet
  rw [if_neg (by simp [h])]

theorem lookup_of_mem_nodup (l : List (String × Answer)) (p : String × Answer)
    (hnd : (l.map Prod.fst).Nodup) (hmem : p ∈ l) : l.lookup p.1 = some p.2 := by
  induction l with
  | nil => simp at hmem
  | cons q rest ih =>
    simp only [List.map_cons, List.nodup_cons] at hnd
    rcases List.mem_cons.mp hmem with rfl | hmem'
    · simp [List.lookup]
    · have hne : (p.1 == q.1) = false := by
        simp only [beq_eq_false_iff_ne]
        intro hq
        apply hnd.1
        rw [← hq]
        exact List.mem_map_of_mem Prod.fst hmem'
      simp only [List.lookup, hne]
      exact ih hnd.2 hmem'

theorem buildRequestBody_identity_go (full : List (String × Answer)) (m : Meta)
    (todo : List (String × Answer)) :
    ∀ body : List (String × JVal),
      (∀ p ∈ todo, full.lookup p.1 = some p.2) →
      (todo.map Prod.fst).Nodup →
      (∀ k ∈ todo.map Prod.fst, jsStartsWith k "_meta." = false) →
      (∀ k ∈ todo.map Prod.fst, body.any (fun q => q.1 == k) = false) →
      (todo.map (fun p => (p.1, p.1))).foldl (buildStep full m) body =
        body ++ todo.map (fun p => (p.1, p.2.value)) := by
  induction todo with
  | nil =>
    intro body _ _ _ _
    simp
  | cons p rest ih =>
    intro body hlook hnd hmeta hfresh
    simp only [List.map_cons, List.foldl_cons]
    have hstep : buildStep full m body (p.1, p.1) = body ++ [(p.1, p.2.value)] := by
      unfold buildStep
      rw [if_neg (by simp [hmeta p.1 (by simp)])]
      simp only [hlook p (by simp)]
      exact objSet_append_of_not_any _ _ _ (hfresh p.1 (by simp))
    rw [hstep]
    simp only [List.map_cons, List.nodup_cons] at hnd
    rw [ih (body ++ [(p.1, p.2.value)])
      (fun q hq => hlook q (List.mem_cons_of_mem _ hq))
      hnd.2
      (fun k hk => hmeta k (List.mem_cons_of_mem _ hk))
      (fun k hk => by
        have hb : body.any (fun q => q.1 == k) = false :=
          hfresh k (List.mem_cons_of_mem _ hk)
        have hp : (p.1 == k) = false := by
          simp only [beq_eq_false_iff_ne]
          intro hh
          exact hnd.1 (hh ▸ hk)
        simp [List.any_append, hb, hp])]
    simp

/-- C7 (amended): with an empty configured field mapping the effective
mapping is the identity over the answer keys, and — provided no answer key
collides with the reserved `_meta.` namespace and the keys are distinct —
`buildRequestBody` emits every answer key mapped to itself with its answer
value unchanged and no metadata-derived fields. -/
theorem C7_identity_passthrough_amended (answers : List (String × Answer)) (m : Meta)
    (hnd : (answers.map Prod.fst).Nodup)
    (hmeta : ∀ k ∈ answers.map Prod.fst, jsStartsWith k "_meta." = false) :
    effectiveMapping [] answers = answers.map (fun p => (p.1, p.1))
    ∧ buildRequestBody answers (effectiveMapping [] answers) m =
        answers.map (fun p => (p.1, p.2.value)) := by
  have hmap : effectiveMapping [] answers = answers.map (fun p => (p.1, p.1)) := by
    simp [effectiveMapping]
  refine ⟨hmap, ?_⟩
  rw [hmap]
  unfold buildRequestBody
  have h := buildRequestBody_identity_go answers m answers []
    (fun p hp => lookup_of_mem_nodup answers p hnd hp) hnd hmeta (by simp)
  simpa using h

/-- Witness for C7 (amended) at a one-answer map. -/
theorem C7_identity_passthrough_amended_witness :
    buildRequestBody [("email", exAnswerEmail)]
      (effectiveMapping [] [("email", exAnswerEmail)]) exMeta =
      [("email", JVal.str "a@b.com")] := by
  have h := (C7_identity_passthrough_amended [("email", exAnswerEmail)] exMeta
    (by decide) (by decide)).2
  simpa using h

/-- C7 (counterexample to the claim as stated): an answer whose key lies in
the reserved `_meta.` namespace is resolved against the metadata bag even
under the identity fallback, so its emitted value is metadata-derived rather
than the answer value. -/
theorem C7_identity_passthrough_counterexample :
    buildRequestBody exAnswersMetaKey (effectiveMapping [] exAnswersMetaKey) exMeta =
      [("_meta.submissionId", JVal.str "SUB-1")]
    ∧ buildRequestBody exAnswersMetaKey (effectiveMapping [] exAnswersMetaKey) exMeta ≠
        exAnswersMetaKey.map (fun p => (p.1, p.2.value)) := by
  decide

/-- C9: with an empty eligible list, `distributeSubmission` returns a
structured failure (success = false, descriptive no-eligible-clients reason,
no delivery id), makes no HTTP call, and leaves the store unchanged. -/
theorem C9_no_eligible_clients (db : Db) (now : Int)
    (oracle : HttpRequest → FetchOutcome) (formId submissionId : String)
    (answers : List (String × Answer)) (meta : SubMeta)
    (hempty : getEligibleClients db now formId = []) :
    (distributeSubmission db now oracle formId submissionId answers meta).result.success = false
    ∧ (distributeSubmission db now oracle formId submissionId answers meta).result.error =
        some "No eligible clients available (all quotas exhausted or no clients configured)"
    ∧ (distributeSubmission db now oracle formId submissionId answers meta).result.deliveryId =
        none
    ∧ (distributeSubmission db now oracle formId submissionId answers meta).requests = []
    ∧ (distributeSubmission db now oracle formId submissionId answers meta).db = db := by
  unfold distributeSubmission
  rw [hempty]
  simp

/-- Witness for C9 on the empty store. -/
theorem C9_no_eligible_clients_witness :
    (distributeSubmission exDbEmpty 0 (fun _ => .netError "down") "F" "S" [] exSubMeta).result.success = false
    ∧ (distributeSubmission exDbEmpty 0 (fun _ => .netError "down") "F" "S" [] exSubMeta).requests = [] := by
  have h := C9_no_eligible_clients exDbEmpty 0 (fun _ => .netError "down") "F" "S" [] exSubMeta
    (by decide)
  exact ⟨h.1, h.2.2.2.1⟩

end Faceland
